import Mathlib

/-!
A shallow embedding of the simulation-and-render loop of `main.go`
(an SDL2 demo: a bouncing text label, a keyboard-driven sprite, a
periodically randomized draw color), together with proofs about the
per-frame behaviour.

Machine integers (`int32`, `int`) are modelled as `Int`: all quantities
involved stay far below the `int32` range, so no wrap-around can occur in
the source and the embedding is faithful on that domain.
-/

namespace SdlDemo

/-- `windowWidth` constant from `main.go`. -/
def windowWidth : Int := 800

/-- `windowHeight` constant from `main.go`. -/
def windowHeight : Int := 600

/-- `spriteWidth` constant from `main.go`. -/
def spriteWidth : Int := 128

/-- `spriteHeight` constant from `main.go`. -/
def spriteHeight : Int := 128

/-- `sdl.Rect`: position and size of an axis-aligned rectangle. -/
structure Rect where
  x : Int
  y : Int
  w : Int
  h : Int
deriving DecidableEq, Repr

/-- The draw color set by `renderer.SetDrawColor` (r, g, b, a channels). -/
structure Color where
  r : Nat
  g : Nat
  b : Nat
  a : Nat
deriving DecidableEq, Repr

/-- The per-frame snapshot of held movement keys read from
`sdl.GetKeyboardState()`: arrows plus the WASD aliases. -/
structure Keyboard where
  up : Bool
  down : Bool
  left : Bool
  right : Bool
  w : Bool
  a : Bool
  s : Bool
  d : Bool
deriving DecidableEq, Repr

/-- The keyboard snapshot with no key held. -/
def noKeys : Keyboard :=
  { up := false, down := false, left := false, right := false,
    w := false, a := false, s := false, d := false }

/-- The fields of the Go `Game` struct that the loop reads and writes:
the two tracked rectangles and their velocities, the shared draw color,
and the music playback flags.  `rng` models the pending stream of draws
from `math/rand` (each `rand.Intn(256)` consumes one entry).  Handles to
window, renderer, textures and sounds are opaque collaborators and carry
no state relevant to the loop. -/
structure Game where
  textRect : Rect
  textXVelocity : Int
  textYVelocity : Int
  spriteRect : Rect
  spriteVelocity : Int
  drawColor : Color
  rng : List Nat
  musicPlaying : Bool
  musicPaused : Bool
deriving DecidableEq, Repr

/-- The axis on which a wall bounce happened; each bounce plays the
`chunkSDL` sound once, so the list of axes produced by a frame is the
list of bounce sounds played that frame, in program order. -/
inductive Axis where
  | x
  | y
deriving DecidableEq, Repr

/-- `Game.moveText` from `main.go` (lines 282-294): add the velocity to
the position, then, per axis on the UPDATED position, flip that axis's
velocity and play one bounce sound when the rectangle touches or crosses
the arena boundary.  Returns the updated game and the bounce sounds
played, in order (x-axis check first, as in the source). -/
def moveText (g : Game) : Game × List Axis :=
  let r : Rect := { g.textRect with
                    x := g.textRect.x + g.textXVelocity,
                    y := g.textRect.y + g.textYVelocity }
  let condX : Prop := r.x ≤ 0 ∨ windowWidth ≤ r.x + r.w
  let condY : Prop := r.y ≤ 0 ∨ windowHeight ≤ r.y + r.h
  ({ g with
      textRect := r,
      textXVelocity := if condX then -g.textXVelocity else g.textXVelocity,
      textYVelocity := if condY then -g.textYVelocity else g.textYVelocity },
   (if condX then [Axis.x] else []) ++ (if condY then [Axis.y] else []))

/-- First component of `moveText`: the updated game state. -/
def moveTextG (g : Game) : Game := (moveText g).1

/-- The bounce-sound events played by one `moveText` call. -/
def moveTextSounds (g : Game) : List Axis := (moveText g).2

/-- The x-axis bounce condition of `moveText`, on the updated position. -/
def textBounceX (g : Game) : Prop :=
  g.textRect.x + g.textXVelocity ≤ 0 ∨
    windowWidth ≤ g.textRect.x + g.textXVelocity + g.textRect.w

/-- The y-axis bounce condition of `moveText`, on the updated position. -/
def textBounceY (g : Game) : Prop :=
  g.textRect.y + g.textYVelocity ≤ 0 ∨
    windowHeight ≤ g.textRect.y + g.textYVelocity + g.textRect.h

instance (g : Game) : Decidable (textBounceX g) := by
  unfold textBounceX; infer_instance

instance (g : Game) : Decidable (textBounceY g) := by
  unfold textBounceY; infer_instance

/-- `keyboard[UP] != 0 || keyboard[W] != 0` in `Game.moveSprite`. -/
def upHeld (k : Keyboard) : Bool := k.up || k.w

/-- `keyboard[DOWN] != 0 || keyboard[S] != 0` in `Game.moveSprite`. -/
def downHeld (k : Keyboard) : Bool := k.down || k.s

/-- `keyboard[LEFT] != 0 || keyboard[A] != 0` in `Game.moveSprite`. -/
def leftHeld (k : Keyboard) : Bool := k.left || k.a

/-- `keyboard[RIGHT] != 0 || keyboard[D] != 0` in `Game.moveSprite`. -/
def rightHeld (k : Keyboard) : Bool := k.right || k.d

/-- `Game.moveSprite` from `main.go` (lines 258-280): for each held
direction, in source order up, down, left, right, move the sprite by the
sprite velocity on that axis when the guard allows it; otherwise leave
that coordinate as it is.  Each guard reads the rectangle as already
updated by the earlier directions, as the in-place mutation does. -/
def moveSprite (k : Keyboard) (g : Game) : Game :=
  let v := g.spriteVelocity
  let r0 := g.spriteRect
  let r1 := if upHeld k ∧ 0 ≤ r0.y ∧ 0 ≤ r0.y - v then
              { r0 with y := r0.y - v } else r0
  let r2 := if downHeld k ∧ r1.y + r1.h < windowHeight ∧
               r1.y + r1.h + v ≤ windowHeight then
              { r1 with y := r1.y + v } else r1
  let r3 := if leftHeld k ∧ 0 < r2.x ∧ 0 ≤ r2.x - v then
              { r2 with x := r2.x - v } else r2
  let r4 := if rightHeld k ∧ r3.x + r3.w < windowWidth ∧
               r3.x + r3.w + v ≤ windowWidth then
              { r3 with x := r3.x + v } else r3
  { g with spriteRect := r4 }

/-- `rand.Intn n` from `math/rand` returns a value in `[0, n)`; the
library's generator is external, so the draw is modelled as consuming one
entry of the pending stream and reducing it modulo `n`. -/
def intn (n : Nat) (seed : Nat) : Nat := seed % n

/-- `Game.randColor` from `main.go` (lines 296-299):
`SetDrawColor(uint8(rand.Intn(256)), uint8(rand.Intn(256)),
uint8(rand.Intn(256)), 0)` — three independent draws for r, g, b, and a
literal `0` alpha, written to the shared draw-color state. -/
def randColor (g : Game) : Game :=
  { g with
      drawColor :=
        { r := intn 256 (g.rng.headD 0),
          g := intn 256 ((g.rng.drop 1).headD 0),
          b := intn 256 ((g.rng.drop 2).headD 0),
          a := 0 },
      rng := g.rng.drop 3 }

/-- `Game.pauseUnpauseMusic` from `main.go` (lines 248-256): a no-op
unless music is playing; otherwise toggle the paused flag. -/
def pauseUnpauseMusic (g : Game) : Game :=
  if g.musicPlaying then
    if g.musicPaused then { g with musicPaused := false }
    else { g with musicPaused := true }
  else g

/-- The keys whose key-down events the poll loop dispatches on. -/
inductive EKey where
  | escape
  | space
  | m
  | other
deriving DecidableEq, Repr

/-- A discrete transition drained from `sdl.PollEvent()`: window close
(`sdl.QuitEvent`), or a keyboard event with its pressed/released edge. -/
inductive Event where
  | quit
  | keyDown (k : EKey)
  | keyUp (k : EKey)
deriving DecidableEq, Repr

/-- Whether an event makes the loop return (window close or escape
key-down), per lines 214-220 of `main.go`. -/
def isQuitEvent : Event → Bool
  | Event.quit => true
  | Event.keyDown EKey.escape => true
  | _ => false

/-- One iteration of the event-poll `switch` (lines 213-228): `none`
means the `return` path was taken, otherwise the updated state.  A space
key-down plays the `chunkGo` sound and immediately randomizes the color;
an `m` key-down toggles music pause; key-up events and other keys do
nothing. -/
def processEvent (g : Game) : Event → Option Game
  | Event.quit => none
  | Event.keyDown EKey.escape => none
  | Event.keyDown EKey.space => some (randColor g)
  | Event.keyDown EKey.m => some (pauseUnpauseMusic g)
  | Event.keyDown EKey.other => some g
  | Event.keyUp _ => some g

/-- The full drain of the transition queue (lines 211-229): events are
processed in arrival order until the queue is empty or a quit transition
returns from the loop. -/
def processEvents (g : Game) : List Event → Option Game
  | [] => some g
  | e :: rest =>
    match processEvent g e with
    | none => none
    | some g2 => processEvents g2 rest

/-- The `if` condition at line 232: some movement key (arrow or WASD) is
currently held. -/
def anyMoveKey (k : Keyboard) : Bool :=
  k.up || k.down || k.left || k.right || k.w || k.a || k.s || k.d

/-- The observable operations of one frame, in the order the loop body
issues them; used to state ordering properties of the loop. -/
inductive Op where
  | pollEvents
  | spriteMotion
  | clear
  | drawBackground
  | textMotion
  | drawText
  | drawSprite
  | present
  | delay
deriving DecidableEq, Repr

/-- One iteration of the `for` loop in `Game.Run` (lines 210-245): drain
the transition queue (returning `none` on a quit transition, with no
further work); otherwise conditionally move the sprite, then
`renderer.Clear()`, draw the background, advance the text motion, draw
text and sprite, present, and delay 20 ms.  The second component is the
trace of operations the iteration issued, in program order. -/
def runFrame (events : List Event) (k : Keyboard) (g : Game) :
    Option Game × List Op :=
  match processEvents g events with
  | none => (none, [Op.pollEvents])
  | some g1 =>
    let sprite := if anyMoveKey k then
                    (moveSprite k g1, [Op.spriteMotion])
                  else (g1, [])
    let afterClear := sprite.2 ++ [Op.clear, Op.drawBackground]
    let g4 := moveTextG sprite.1
    let trace := afterClear ++
      [Op.textMotion, Op.drawText, Op.drawSprite, Op.present, Op.delay]
    (some g4, Op.pollEvents :: trace)

/-- Modelled from the spec: the width of the rendered text surface.  The
source computes it by font rasterization (`ttf` `RenderUTF8Blended`), an
external collaborator; the spec's example scenario fixes the text
rectangle at 300x100. -/
def textW : Int := 300

/-- Modelled from the spec: the height of the rendered text surface (see
`textW`). -/
def textH : Int := 100

/-- The state set up by `Game.Init` (lines 79-153): text rectangle of
size `textW` x `textH` centered in the window with velocity (2, 2),
sprite of 128x128 at the origin with velocity step 10; music starts
playing (unpaused) at the top of `Game.Run`. -/
def initGame : Game :=
  { textRect := { x := (windowWidth - textW) / 2,
                  y := (windowHeight - textH) / 2,
                  w := textW, h := textH },
    textXVelocity := 2,
    textYVelocity := 2,
    spriteRect := { x := 0, y := 0, w := spriteWidth, h := spriteHeight },
    spriteVelocity := 10,
    drawColor := { r := 0, g := 0, b := 0, a := 255 },
    rng := [],
    musicPlaying := true,
    musicPaused := false }

/-- The states the frame loop can reach from the initial state: each step
is one non-terminating `runFrame` with an arbitrary drained event queue
and an arbitrary keyboard snapshot. -/
inductive Reachable : Game → Prop where
  | init : Reachable initGame
  | step {g g2 : Game} (events : List Event) (k : Keyboard) :
      Reachable g → (runFrame events k g).1 = some g2 → Reachable g2

/-- Iterating the idle frame (empty queue, no key held) `n` times; by
`runFrame`, such a frame only advances the text motion. -/
def idleFrames : Nat → Game → Game
  | 0, g => g
  | n + 1, g => idleFrames n (((runFrame [] noKeys g).1).getD g)

/-- The state of the example scenario after `n` calls of the
text-advance operation, starting from the initial state. -/
def textAfter : Nat → Game
  | 0 => initGame
  | n + 1 => moveTextG (textAfter n)

/-- Whether the text rectangle touches or crosses the right arena edge:
`x + w >= windowWidth`. -/
def hitRight (g : Game) : Bool :=
  decide (windowWidth ≤ g.textRect.x + g.textRect.w)

/-- C1: one `moveText` call adds the velocity to the position on both
axes, keeps the size, and on each axis independently flips that axis's
velocity sign and plays exactly one bounce sound for that axis exactly
when the updated position satisfies `pos <= 0` or
`pos + size >= arenaBound`; otherwise that axis's velocity is unchanged
and no sound for that axis is played. -/
theorem moveText_bounce_spec (g : Game) :
    (moveTextG g).textRect.x = g.textRect.x + g.textXVelocity ∧
    (moveTextG g).textRect.y = g.textRect.y + g.textYVelocity ∧
    (moveTextG g).textRect.w = g.textRect.w ∧
    (moveTextG g).textRect.h = g.textRect.h ∧
    (textBounceX g →
      (moveTextG g).textXVelocity = -g.textXVelocity ∧
      (moveTextSounds g).count Axis.x = 1) ∧
    (¬ textBounceX g →
      (moveTextG g).textXVelocity = g.textXVelocity ∧
      (moveTextSounds g).count Axis.x = 0) ∧
    (textBounceY g →
      (moveTextG g).textYVelocity = -g.textYVelocity ∧
      (moveTextSounds g).count Axis.y = 1) ∧
    (¬ textBounceY g →
      (moveTextG g).textYVelocity = g.textYVelocity ∧
      (moveTextSounds g).count Axis.y = 0) := by
  simp only [moveTextG, moveTextSounds, moveText, textBounceX, textBounceY]
  split_ifs <;> simp_all [List.count_cons]

/-- Witness for C1 at a concrete input: the text rectangle one step away
from the right edge, so the x-axis bounce condition holds. -/
theorem moveText_bounce_spec_witness :
    (moveTextG { initGame with
        textRect := { x := 498, y := 250, w := 300, h := 100 } }).textXVelocity =
      -({ initGame with
        textRect := { x := 498, y := 250, w := 300, h := 100 } } : Game).textXVelocity ∧
    (moveTextSounds { initGame with
        textRect := { x := 498, y := 250, w := 300, h := 100 } }).count Axis.x = 1 :=
  (moveText_bounce_spec { initGame with
    textRect := { x := 498, y := 250, w := 300, h := 100 } }).2.2.2.2.1
    (by decide)

/-- C8: every `randColor` call writes to the shared draw color a value
whose r, g, b channels are each in [0, 255], each obtained from its own
independent draw of the random stream. -/
theorem randColor_channel_range (g : Game) :
    (randColor g).drawColor.r ≤ 255 ∧
    (randColor g).drawColor.g ≤ 255 ∧
    (randColor g).drawColor.b ≤ 255 ∧
    (randColor g).drawColor.r = intn 256 (g.rng.headD 0) ∧
    (randColor g).drawColor.g = intn 256 ((g.rng.drop 1).headD 0) ∧
    (randColor g).drawColor.b = intn 256 ((g.rng.drop 2).headD 0) := by
  refine ⟨?_, ?_, ?_, rfl, rfl, rfl⟩ <;>
    · simp only [randColor, intn]
      omega

/-- C9: every `randColor` call sets the alpha channel of the shared draw
color to exactly 0; only r, g, b are randomized. -/
theorem randColor_alpha_zero (g : Game) : (randColor g).drawColor.a = 0 := rfl

/-- C2: from any sprite position with the full rectangle inside the
arena on both axes, one `moveSprite` call with velocity step 10 keeps the
rectangle inside [0, arenaBound - size] on both axes and keeps the
velocity step and size constant; on an axis where every held direction
would move the rectangle out of that interval, the coordinate is left at
its prior value (not clamped to the edge). -/
theorem moveSprite_clamped (k : Keyboard) (g : Game)
    (hv : g.spriteVelocity = 10)
    (hx0 : 0 ≤ g.spriteRect.x)
    (hx1 : g.spriteRect.x + g.spriteRect.w ≤ windowWidth)
    (hy0 : 0 ≤ g.spriteRect.y)
    (hy1 : g.spriteRect.y + g.spriteRect.h ≤ windowHeight) :
    (0 ≤ (moveSprite k g).spriteRect.x ∧
      (moveSprite k g).spriteRect.x + (moveSprite k g).spriteRect.w ≤
        windowWidth ∧
      0 ≤ (moveSprite k g).spriteRect.y ∧
      (moveSprite k g).spriteRect.y + (moveSprite k g).spriteRect.h ≤
        windowHeight) ∧
    (moveSprite k g).spriteVelocity = g.spriteVelocity ∧
    (moveSprite k g).spriteRect.w = g.spriteRect.w ∧
    (moveSprite k g).spriteRect.h = g.spriteRect.h ∧
    ((upHeld k = true → g.spriteRect.y - g.spriteVelocity < 0) →
      (downHeld k = true →
        windowHeight < g.spriteRect.y + g.spriteRect.h + g.spriteVelocity) →
      (moveSprite k g).spriteRect.y = g.spriteRect.y) ∧
    ((leftHeld k = true → g.spriteRect.x - g.spriteVelocity < 0) →
      (rightHeld k = true →
        windowWidth < g.spriteRect.x + g.spriteRect.w + g.spriteVelocity) →
      (moveSprite k g).spriteRect.x = g.spriteRect.x) := by
  simp only [moveSprite, windowWidth, windowHeight] at *
  split_ifs <;> simp_all <;> omega

/-- Witness for C2 at a concrete input: right key held from the initial
sprite state. -/
theorem moveSprite_clamped_witness :
    (moveSprite { noKeys with right := true } initGame).spriteVelocity =
      initGame.spriteVelocity :=
  (moveSprite_clamped { noKeys with right := true } initGame
    (by decide) (by decide) (by decide) (by decide) (by decide)).2.1

/-- Draining a queue that holds a quit transition takes the `return`
path: the remaining frame work is skipped. -/
theorem processEvents_quit (g : Game) (events : List Event)
    (h : ∃ e ∈ events, isQuitEvent e = true) :
    processEvents g events = none := by
  induction events generalizing g with
  | nil => simp at h
  | cons e rest ih =>
    obtain ⟨e', he', hq⟩ := h
    rcases List.mem_cons.mp he' with rfl | hmem
    · cases e' with
      | quit => rfl
      | keyDown key =>
        cases key with
        | escape => rfl
        | space => simp [isQuitEvent] at hq
        | m => simp [isQuitEvent] at hq
        | other => simp [isQuitEvent] at hq
      | keyUp key => simp [isQuitEvent] at hq
    · cases hpe : processEvent g e with
      | none => simp [processEvents, hpe]
      | some g2 =>
        simp only [processEvents, hpe]
        exact ih g2 ⟨e', hmem, hq⟩

/-- C5: when the drained queue contains a quit transition (window close
or escape key-down), the frame performs no sprite motion, no clear, no
draw and no present — even if movement keys are held — and the loop
returns (`none`, the TERMINATED state). -/
theorem quit_suppresses_frame (events : List Event) (k : Keyboard)
    (g : Game) (h : ∃ e ∈ events, isQuitEvent e = true) :
    (runFrame events k g).1 = none ∧
    (runFrame events k g).2 = [Op.pollEvents] ∧
    Op.clear ∉ (runFrame events k g).2 ∧
    Op.drawBackground ∉ (runFrame events k g).2 ∧
    Op.drawText ∉ (runFrame events k g).2 ∧
    Op.drawSprite ∉ (runFrame events k g).2 ∧
    Op.present ∉ (runFrame events k g).2 := by
  have hp := processEvents_quit g events h
  simp [runFrame, hp]

/-- Witness for C5 at a concrete input: a quit event queued while the
right movement key is held. -/
theorem quit_suppresses_frame_witness :
    (runFrame [Event.keyDown EKey.space, Event.quit]
      { noKeys with right := true } initGame).1 = none :=
  (quit_suppresses_frame [Event.keyDown EKey.space, Event.quit]
    { noKeys with right := true } initGame
    ⟨Event.quit, by decide, by decide⟩).1

/-- The frame-operation order the spec asserts, stated from the spec's
words: drain, conditional sprite motion, text motion, then clear, draw
background, draw text, draw sprite, present, delay — in particular text
motion before the clear.  For comparison with the trace of `runFrame`. -/
def specFrameTrace (k : Keyboard) : List Op :=
  [Op.pollEvents] ++ (if anyMoveKey k then [Op.spriteMotion] else []) ++
    [Op.textMotion, Op.clear, Op.drawBackground, Op.drawText,
     Op.drawSprite, Op.present, Op.delay]

/-- Counterexample to C6: on a concrete non-terminating frame (empty
queue, no key held, initial state) the trace issued by the loop body is
not the spec's order; the clear is issued strictly before the text
motion, not after it. -/
theorem frame_order_cex :
    ¬ (runFrame [] noKeys initGame).2 = specFrameTrace noKeys ∧
    (runFrame [] noKeys initGame).2.indexOf Op.clear <
      (runFrame [] noKeys initGame).2.indexOf Op.textMotion := by
  decide

/-- C6 (amended): in every non-terminating frame the operations are
issued in the order: drain transitions, conditional sprite motion, clear
the render surface, draw the background, advance the text motion, draw
the text, draw the sprite, present, and sleep the pacing delay — text
motion is advanced after the clear and the background draw, before the
text draw. -/
theorem frame_order_actual (events : List Event) (k : Keyboard) (g : Game)
    (h : processEvents g events ≠ none) :
    (runFrame events k g).2 =
      [Op.pollEvents] ++
        (if anyMoveKey k then [Op.spriteMotion] else []) ++
        [Op.clear, Op.drawBackground, Op.textMotion, Op.drawText,
         Op.drawSprite, Op.present, Op.delay] := by
  cases hpe : processEvents g events with
  | none => exact absurd hpe h
  | some g1 =>
    by_cases hk : anyMoveKey k <;> simp [runFrame, hpe, hk]

/-- Witness for C6 (amended) at a concrete input: empty queue, no key
held, initial state. -/
theorem frame_order_actual_witness :
    (runFrame [] noKeys initGame).2 =
      [Op.pollEvents] ++
        (if anyMoveKey noKeys then [Op.spriteMotion] else []) ++
        [Op.clear, Op.drawBackground, Op.textMotion, Op.drawText,
         Op.drawSprite, Op.present, Op.delay] :=
  frame_order_actual [] noKeys initGame (by decide)

/-- `moveText` never touches the sprite state. -/
theorem moveTextG_sprite (g : Game) :
    (moveTextG g).spriteRect = g.spriteRect ∧
    (moveTextG g).spriteVelocity = g.spriteVelocity :=
  ⟨rfl, rfl⟩

/-- A `moveText` call that plays no bounce sound leaves both velocities
unchanged and moves the position by exactly the velocity. -/
theorem moveTextG_no_bounce {g : Game} (h : moveTextSounds g = []) :
    (moveTextG g).textRect.x = g.textRect.x + g.textXVelocity ∧
    (moveTextG g).textRect.y = g.textRect.y + g.textYVelocity ∧
    (moveTextG g).textXVelocity = g.textXVelocity ∧
    (moveTextG g).textYVelocity = g.textYVelocity := by
  simp only [moveTextSounds, moveTextG, moveText] at *
  split_ifs at h ⊢ <;> simp_all

/-- One idle frame (empty queue, no key held) reduces to the text
advance. -/
theorem idleFrames_succ (n : Nat) (g : Game) :
    idleFrames (n + 1) g = idleFrames n (moveTextG g) := rfl

/-- C7: over any number of frames with no movement key held and an empty
transition queue, the sprite rectangle and its velocity step are
unchanged; and as long as no bounce occurred in those frames, the text
rectangle has advanced by exactly n times its velocity with the
velocities unchanged. -/
theorem idle_frames_no_input (g : Game) (n : Nat) :
    (idleFrames n g).spriteRect = g.spriteRect ∧
    (idleFrames n g).spriteVelocity = g.spriteVelocity ∧
    ((∀ j < n, moveTextSounds (idleFrames j g) = []) →
      (idleFrames n g).textRect.x =
        g.textRect.x + (n : Int) * g.textXVelocity ∧
      (idleFrames n g).textRect.y =
        g.textRect.y + (n : Int) * g.textYVelocity ∧
      (idleFrames n g).textXVelocity = g.textXVelocity ∧
      (idleFrames n g).textYVelocity = g.textYVelocity) := by
  induction n generalizing g with
  | zero => simp [idleFrames]
  | succ n ih =>
    rw [idleFrames_succ]
    obtain ⟨ihs, ihv, iht⟩ := ih (moveTextG g)
    refine ⟨?_, ?_, ?_⟩
    · rw [ihs, (moveTextG_sprite g).1]
    · rw [ihv, (moveTextG_sprite g).2]
    · intro hb
      have hb0 : moveTextSounds g = [] := hb 0 (Nat.succ_pos n)
      have hb' : ∀ j < n, moveTextSounds (idleFrames j (moveTextG g)) = [] := by
        intro j hj
        rw [← idleFrames_succ]
        exact hb (j + 1) (by omega)
      obtain ⟨hx, hy, hvx, hvy⟩ := iht hb'
      obtain ⟨h0x, h0y, h0vx, h0vy⟩ := moveTextG_no_bounce hb0
      refine ⟨?_, ?_, ?_, ?_⟩
      · rw [hx, h0x, h0vx]; push_cast; ring
      · rw [hy, h0y, h0vy]; push_cast; ring
      · rw [hvx, h0vx]
      · rw [hvy, h0vy]

/-- Witness for C7 at a concrete input: two idle frames from the initial
state. -/
theorem idle_frames_no_input_witness :
    (idleFrames 2 initGame).spriteRect = initGame.spriteRect ∧
    (idleFrames 2 initGame).textRect.x =
      initGame.textRect.x + (2 : Int) * initGame.textXVelocity :=
  ⟨(idle_frames_no_input initGame 2).1,
   (((idle_frames_no_input initGame 2).2.2 (by decide)).1).trans (by decide)⟩

set_option maxRecDepth 10000 in
/-- Counterexample to C4: in the example scenario (800x600 arena, text
300x100 at (250, 250), velocity (2, 2)), the frame where `x + w >= 800`
first holds is the 125th `moveText` call, and during that frame two
bounce sounds fire (the y axis hits the bottom edge the same frame), not
exactly one. -/
theorem text_first_hit_sound_count_cex :
    ((List.range 125).all fun j => !hitRight (textAfter j)) = true ∧
    hitRight (textAfter 125) = true ∧
    ¬ (moveTextSounds (textAfter 124)).length = 1 := by
  decide

set_option maxRecDepth 10000 in
/-- C4 (amended): in the example scenario the first frame with
`x + w >= 800` is the 125th `moveText` call; the velocity for the next
frame is -2 on the x axis, and exactly one bounce sound per flipped axis
fires that frame — two in total, because `y + h >= 600` first holds the
same frame. -/
theorem text_first_hit_amended :
    ((List.range 125).all fun j => !hitRight (textAfter j)) = true ∧
    hitRight (textAfter 125) = true ∧
    (textAfter 125).textXVelocity = -2 ∧
    (moveTextSounds (textAfter 124)).count Axis.x = 1 ∧
    (moveTextSounds (textAfter 124)).count Axis.y = 1 ∧
    (moveTextSounds (textAfter 124)).length = 2 := by
  decide

/-- Inductive invariant for the sprite: size 128x128, velocity step 10,
both coordinates multiples of 10 with x in [0, 670] and y in [0, 470]. -/
abbrev SpriteInv (g : Game) : Prop :=
  g.spriteVelocity = 10 ∧ g.spriteRect.w = 128 ∧ g.spriteRect.h = 128 ∧
  0 ≤ g.spriteRect.x ∧ g.spriteRect.x ≤ 670 ∧ g.spriteRect.x % 10 = 0 ∧
  0 ≤ g.spriteRect.y ∧ g.spriteRect.y ≤ 470 ∧ g.spriteRect.y % 10 = 0

/-- Inductive invariant for the text rectangle: size 300x100, even
coordinates in [0, 500] on both axes, velocity ±2 per axis, and at an
edge the velocity already points back inside. -/
abbrev TextInv (g : Game) : Prop :=
  g.textRect.w = 300 ∧ g.textRect.h = 100 ∧
  0 ≤ g.textRect.x ∧ g.textRect.x ≤ 500 ∧ g.textRect.x % 2 = 0 ∧
  (g.textXVelocity = 2 ∨ g.textXVelocity = -2) ∧
  (g.textRect.x = 0 → g.textXVelocity = 2) ∧
  (g.textRect.x = 500 → g.textXVelocity = -2) ∧
  0 ≤ g.textRect.y ∧ g.textRect.y ≤ 500 ∧ g.textRect.y % 2 = 0 ∧
  (g.textYVelocity = 2 ∨ g.textYVelocity = -2) ∧
  (g.textRect.y = 0 → g.textYVelocity = 2) ∧
  (g.textRect.y = 500 → g.textYVelocity = -2)

/-- The combined inductive invariant of the frame loop's motion state. -/
abbrev MotionInv (g : Game) : Prop := SpriteInv g ∧ TextInv g

/-- The initial state satisfies the invariant. -/
theorem motionInv_init : MotionInv initGame := by
  decide

/-- `randColor` never touches the motion state. -/
theorem randColor_motion (g : Game) :
    (randColor g).textRect = g.textRect ∧
    (randColor g).textXVelocity = g.textXVelocity ∧
    (randColor g).textYVelocity = g.textYVelocity ∧
    (randColor g).spriteRect = g.spriteRect ∧
    (randColor g).spriteVelocity = g.spriteVelocity :=
  ⟨rfl, rfl, rfl, rfl, rfl⟩

/-- `pauseUnpauseMusic` never touches the motion state. -/
theorem pauseUnpauseMusic_motion (g : Game) :
    (pauseUnpauseMusic g).textRect = g.textRect ∧
    (pauseUnpauseMusic g).textXVelocity = g.textXVelocity ∧
    (pauseUnpauseMusic g).textYVelocity = g.textYVelocity ∧
    (pauseUnpauseMusic g).spriteRect = g.spriteRect ∧
    (pauseUnpauseMusic g).spriteVelocity = g.spriteVelocity := by
  unfold pauseUnpauseMusic
  split_ifs <;> exact ⟨rfl, rfl, rfl, rfl, rfl⟩

/-- Draining the transition queue never touches the motion state. -/
theorem processEvents_motion (events : List Event) (g g2 : Game)
    (h : processEvents g events = some g2) :
    g2.textRect = g.textRect ∧
    g2.textXVelocity = g.textXVelocity ∧
    g2.textYVelocity = g.textYVelocity ∧
    g2.spriteRect = g.spriteRect ∧
    g2.spriteVelocity = g.spriteVelocity := by
  induction events generalizing g with
  | nil =>
    simp only [processEvents, Option.some.injEq] at h
    subst h
    exact ⟨rfl, rfl, rfl, rfl, rfl⟩
  | cons e rest ih =>
    cases hpe : processEvent g e with
    | none => simp [processEvents, hpe] at h
    | some g1 =>
      simp only [processEvents, hpe] at h
      have h1 := ih g1 h
      have h0 : g1.textRect = g.textRect ∧
          g1.textXVelocity = g.textXVelocity ∧
          g1.textYVelocity = g.textYVelocity ∧
          g1.spriteRect = g.spriteRect ∧
          g1.spriteVelocity = g.spriteVelocity := by
        cases e with
        | quit => simp [processEvent] at hpe
        | keyDown key =>
          cases key with
          | escape => simp [processEvent] at hpe
          | space =>
            simp only [processEvent, Option.some.injEq] at hpe
            subst hpe
            exact randColor_motion g
          | m =>
            simp only [processEvent, Option.some.injEq] at hpe
            subst hpe
            exact pauseUnpauseMusic_motion g
          | other =>
            simp only [processEvent, Option.some.injEq] at hpe
            subst hpe
            exact ⟨rfl, rfl, rfl, rfl, rfl⟩
        | keyUp key =>
          simp only [processEvent, Option.some.injEq] at hpe
          subst hpe
          exact ⟨rfl, rfl, rfl, rfl, rfl⟩
      exact ⟨h1.1.trans h0.1, h1.2.1.trans h0.2.1, h1.2.2.1.trans h0.2.2.1,
             h1.2.2.2.1.trans h0.2.2.2.1, h1.2.2.2.2.trans h0.2.2.2.2⟩

/-- `moveSprite` preserves the sprite invariant. -/
theorem spriteInv_moveSprite (k : Keyboard) (g : Game) (h : SpriteInv g) :
    SpriteInv (moveSprite k g) := by
  obtain ⟨hv, hw, hh, hx0, hx1, hx2, hy0, hy1, hy2⟩ := h
  simp only [SpriteInv, moveSprite, windowWidth, windowHeight] at *
  split_ifs <;> simp_all <;> omega

/-- `moveSprite` never touches the text state. -/
theorem moveSprite_text (k : Keyboard) (g : Game) :
    (moveSprite k g).textRect = g.textRect ∧
    (moveSprite k g).textXVelocity = g.textXVelocity ∧
    (moveSprite k g).textYVelocity = g.textYVelocity :=
  ⟨rfl, rfl, rfl⟩

/-- `moveText` preserves the text invariant. -/
theorem textInv_moveText (g : Game) (h : TextInv g) :
    TextInv (moveTextG g) := by
  obtain ⟨hw, hh, hx0, hx1, hx2, hvx, hex0, hex1, hy0, hy1, hy2, hvy,
          hey0, hey1⟩ := h
  simp only [TextInv, moveTextG, moveText, windowWidth, windowHeight] at *
  split_ifs <;> simp_all <;> omega

/-- The sprite invariant only depends on the sprite fields. -/
theorem spriteInv_congr {g g2 : Game} (hs : g2.spriteRect = g.spriteRect)
    (hsv : g2.spriteVelocity = g.spriteVelocity) (h : SpriteInv g) :
    SpriteInv g2 := by
  unfold SpriteInv at h ⊢
  rw [hs, hsv]
  exact h

/-- The text invariant only depends on the text fields. -/
theorem textInv_congr {g g2 : Game} (ht : g2.textRect = g.textRect)
    (hvx : g2.textXVelocity = g.textXVelocity)
    (hvy : g2.textYVelocity = g.textYVelocity) (h : TextInv g) :
    TextInv g2 := by
  unfold TextInv at h ⊢
  rw [ht, hvx, hvy]
  exact h

/-- A non-terminating frame preserves the motion invariant. -/
theorem motionInv_step {g g2 : Game} (events : List Event) (k : Keyboard)
    (h : (runFrame events k g).1 = some g2) (hi : MotionInv g) :
    MotionInv g2 := by
  cases hpe : processEvents g events with
  | none => simp [runFrame, hpe] at h
  | some g1 =>
    have hm := processEvents_motion events g g1 hpe
    have hi1 : MotionInv g1 :=
      ⟨spriteInv_congr hm.2.2.2.1 hm.2.2.2.2 hi.1,
       textInv_congr hm.1 hm.2.1 hm.2.2.1 hi.2⟩
    by_cases hk : anyMoveKey k
    · have hg2 : g2 = moveTextG (moveSprite k g1) := by
        simp [runFrame, hpe, hk] at h
        exact h.symm
      subst hg2
      have hs2 : MotionInv (moveSprite k g1) :=
        ⟨spriteInv_moveSprite k g1 hi1.1,
         textInv_congr (moveSprite_text k g1).1 (moveSprite_text k g1).2.1
           (moveSprite_text k g1).2.2 hi1.2⟩
      exact ⟨spriteInv_congr (moveTextG_sprite _).1 (moveTextG_sprite _).2
               hs2.1,
             textInv_moveText _ hs2.2⟩
    · have hg2 : g2 = moveTextG g1 := by
        simp [runFrame, hpe, hk] at h
        exact h.symm
      subst hg2
      exact ⟨spriteInv_congr (moveTextG_sprite _).1 (moveTextG_sprite _).2
               hi1.1,
             textInv_moveText _ hi1.2⟩

/-- Every reachable state of the frame loop satisfies the invariant. -/
theorem reachable_motionInv {g : Game} (h : Reachable g) : MotionInv g := by
  induction h with
  | init => exact motionInv_init
  | step events k _ hstep ih => exact motionInv_step events k hstep ih

/-- C3: every state the frame loop can reach keeps both positioned
entities (bouncing text and clamped sprite) fully inside the arena: on
each axis the position is at least 0 and position + size is at most the
arena bound. -/
theorem reachable_in_bounds (g : Game) (h : Reachable g) :
    0 ≤ g.textRect.x ∧ g.textRect.x + g.textRect.w ≤ windowWidth ∧
    0 ≤ g.textRect.y ∧ g.textRect.y + g.textRect.h ≤ windowHeight ∧
    0 ≤ g.spriteRect.x ∧ g.spriteRect.x + g.spriteRect.w ≤ windowWidth ∧
    0 ≤ g.spriteRect.y ∧ g.spriteRect.y + g.spriteRect.h ≤ windowHeight := by
  have hi := reachable_motionInv h
  obtain ⟨⟨hv, hw, hh, hx0, hx1, hx2, hy0, hy1, hy2⟩,
          tw, th, tx0, tx1, tx2, tvx, tex0, tex1, ty0, ty1, ty2, tvy,
          tey0, tey1⟩ := hi
  unfold windowWidth windowHeight
  omega

/-- Witness for C3 at a concrete reachable state: the initial state. -/
theorem reachable_in_bounds_witness :
    0 ≤ initGame.textRect.x ∧
    initGame.textRect.x + initGame.textRect.w ≤ windowWidth ∧
    0 ≤ initGame.textRect.y ∧
    initGame.textRect.y + initGame.textRect.h ≤ windowHeight ∧
    0 ≤ initGame.spriteRect.x ∧
    initGame.spriteRect.x + initGame.spriteRect.w ≤ windowWidth ∧
    0 ≤ initGame.spriteRect.y ∧
    initGame.spriteRect.y + initGame.spriteRect.h ≤ windowHeight :=
  reachable_in_bounds initGame Reachable.init

/-- C10: from the initial sprite position (0, 0) with velocity step 10
and size 128x128, every reachable sprite position has both coordinates
multiples of 10, with x at most 670 and y at most 470; the sprite never
touches x = 672 or y = 472, so a 2-pixel gap to the right and bottom
edges always remains. -/
theorem sprite_grid_gap (g : Game) (h : Reachable g) :
    g.spriteRect.x % 10 = 0 ∧ g.spriteRect.y % 10 = 0 ∧
    0 ≤ g.spriteRect.x ∧ g.spriteRect.x ≤ 670 ∧
    0 ≤ g.spriteRect.y ∧ g.spriteRect.y ≤ 470 ∧
    g.spriteRect.x ≠ 672 ∧ g.spriteRect.y ≠ 472 ∧
    g.spriteRect.x + g.spriteRect.w ≤ windowWidth - 2 ∧
    g.spriteRect.y + g.spriteRect.h ≤ windowHeight - 2 := by
  have hi := reachable_motionInv h
  obtain ⟨⟨hv, hw, hh, hx0, hx1, hx2, hy0, hy1, hy2⟩, _⟩ := hi
  unfold windowWidth windowHeight
  omega

/-- Witness for C10 at a concrete reachable state: the initial state. -/
theorem sprite_grid_gap_witness :
    initGame.spriteRect.x % 10 = 0 ∧ initGame.spriteRect.y % 10 = 0 ∧
    0 ≤ initGame.spriteRect.x ∧ initGame.spriteRect.x ≤ 670 ∧
    0 ≤ initGame.spriteRect.y ∧ initGame.spriteRect.y ≤ 470 ∧
    initGame.spriteRect.x ≠ 672 ∧ initGame.spriteRect.y ≠ 472 ∧
    initGame.spriteRect.x + initGame.spriteRect.w ≤ windowWidth - 2 ∧
    initGame.spriteRect.y + initGame.spriteRect.h ≤ windowHeight - 2 :=
  sprite_grid_gap initGame Reachable.init

end SdlDemo
